import Mathlib

/-!
Verification development for the voice-note store implemented in `src/app.py`.

The program is a Streamlit application backed by a Qdrant vector collection and
an OpenAI embedding service.  This file gives a shallow embedding of the core
note-repository operations (`add_note_to_db`, `list_notes_from_db`,
`assure_db_collection_exists`, and the user-identifier derivation in
`get_api_key_securely`) and proves or refutes the specification's claims about
them.

Modelling conventions:

* The Qdrant collection is a list of points; `client.count(exact=True)` is the
  list length, `client.upsert` is insert-or-replace keyed by point id,
  `client.scroll` returns filtered points in the store's natural order
  (ascending point id), and `client.search` scores the filtered points with the
  collection's similarity metric, ranks them by descending score and returns
  the top `limit`.
* Embedding vectors are real-valued in the program; they are modelled over the
  exact rationals (`ℚ`), and the cosine similarity computed inside Qdrant is an
  arbitrary parameter `sim : Vec → Vec → ℚ` of the store model: every claim
  about search depends only on the ordering of the returned scores, not on the
  numeric value of the metric.
* The OpenAI embedding call `get_embeddings` is a fallible collaborator,
  modelled as a parameter `embed : String → Except Err Vec`; a raised Python
  exception is `Except.error`.
* Streamlit session state (`user_id`, `has_searched`, `last_query`,
  `search_results`) is an explicit `Session` record; the Qdrant collection is
  threaded explicitly as state.  `add_note_to_db` returns the collection after
  the call together with the outcome: a raised exception does not roll back a
  Qdrant write that already happened, so the collection component is
  meaningful in the error case as well.
* Python's `str.strip` is modelled by `pyStrip`, which removes leading and
  trailing whitespace from the char list of the string.
* `hashlib.md5(...).hexdigest()` from the Python standard library is modelled
  by a complete executable MD5 implementation over byte lists, together with
  UTF-8 encoding of the credential string.
-/

namespace NotesApp

/-- Embedding vectors: real-valued float lists in the program, modelled over
the exact rationals. -/
abbrev Vec := List ℚ

/-- Payload stored with every point, from `add_note_to_db`:
`payload={"text": note_text, "user_id": user_id}`. -/
structure Payload where
  text : String
  user_id : String
  deriving Repr, DecidableEq

/-- A stored point (`PointStruct(id=..., vector=..., payload=...)`). -/
structure Point where
  id : Nat
  vector : Vec
  payload : Payload
  deriving Repr, DecidableEq

/-- The Qdrant collection: all stored points, across all users. -/
abbrev DB := List Point

/-- A failure raised by a collaborator (embedding service or vector store);
it is propagated as a Python exception. -/
inductive Err where
  | serviceError (msg : String)
  deriving Repr, DecidableEq

/-- Model of `client.count(collection_name=..., exact=True).count`: the exact
total number of points in the collection, across all users. -/
def qdrantCount (db : DB) : Nat := db.length

/-- Model of `client.upsert` with a single point: insert-or-replace keyed by
the point id.  If a point with the same id exists it is overwritten in place,
otherwise the new point is appended. -/
def qdrantUpsert (db : DB) (p : Point) : DB :=
  if db.any (fun q => q.id == p.id) then
    db.map (fun q => if q.id == p.id then p else q)
  else
    db ++ [p]

/-- A search hit: a stored point together with its similarity score. -/
structure Scored where
  point : Point
  score : ℚ
  deriving Repr, DecidableEq

/-- Model of `client.search(collection_name, query_vector, query_filter,
limit)`: keep only the points matching the mandatory `user_id` filter, score
each against the query vector with the collection metric `sim`, rank by
descending score and return the top `limit`. -/
def qdrantSearch (sim : Vec → Vec → ℚ) (db : DB) (qv : Vec) (uid : String)
    (limit : Nat) : List Scored :=
  (List.insertionSort (fun a b => b.score ≤ a.score)
    ((db.filter (fun p => p.payload.user_id == uid)).map
      (fun p => Scored.mk p (sim qv p.vector)))).take limit

/-- Model of `client.scroll(collection_name, scroll_filter, limit)[0]`: keep
only the points matching the `user_id` filter and return up to `limit` of
them in the store's natural order (ascending point id). -/
def qdrantScroll (db : DB) (uid : String) (limit : Nat) : List Point :=
  (List.insertionSort (fun p q => p.id ≤ q.id)
    (db.filter (fun p => p.payload.user_id == uid))).take limit

/-- Model of Python's `str.strip`: remove leading and trailing whitespace.
Defined over the char list by structural recursion so that it evaluates by
kernel reduction. -/
def pyStrip (s : String) : String :=
  String.mk (((s.data.dropWhile Char.isWhitespace).reverse.dropWhile
    Char.isWhitespace).reverse)

/-- One entry of the list returned by `list_notes_from_db`:
`{"text": n.payload["text"], "score": getattr(n, "score", None)}`.  Scroll
results have no `score` attribute, so `score` is `none` in browse mode. -/
structure NoteView where
  text : String
  score : Option ℚ
  deriving Repr, DecidableEq

/-- The Streamlit session state fields used by the note repository. -/
structure Session where
  user_id : String
  has_searched : Bool
  last_query : String
  search_results : List NoteView
  deriving Repr, DecidableEq

/-- Model of `list_notes_from_db(query=None)` from `src/app.py`.  Query mode
(query present and with non-blank strip) embeds the query and searches with
the mandatory `user_id` filter, limit 10; browse mode scrolls with the same
filter, limit 10.  The embedding call may fail, in which case the exception
propagates. -/
def list_notes_from_db (sim : Vec → Vec → ℚ) (embed : String → Except Err Vec)
    (db : DB) (st : Session) (query : Option String) :
    Except Err (List NoteView) :=
  match query with
  | some q =>
      if pyStrip q ≠ "" then
        match embed q with
        | Except.error e => Except.error e
        | Except.ok qv =>
            Except.ok ((qdrantSearch sim db qv st.user_id 10).map
              (fun s => NoteView.mk s.point.payload.text (some s.score)))
      else
        Except.ok ((qdrantScroll db st.user_id 10).map
          (fun p => NoteView.mk p.payload.text none))
  | none =>
      Except.ok ((qdrantScroll db st.user_id 10).map
        (fun p => NoteView.mk p.payload.text none))

/-- Model of `add_note_to_db(note_text)` from `src/app.py`.  Reads the exact
total count, embeds the text, upserts the point with id `count + 1` and
payload `{text, user_id}`, then — when a search has already happened —
recomputes the cached search results for the remembered last query.  The
first component of the result is the collection after the call (a raised
exception does not undo a write that already happened); the second is the
session on success, or the propagated exception. -/
def add_note_to_db (sim : Vec → Vec → ℚ) (embed : String → Except Err Vec)
    (db : DB) (st : Session) (note_text : String) :
    DB × Except Err Session :=
  let count := qdrantCount db
  match embed note_text with
  | Except.error e => (db, Except.error e)
  | Except.ok v =>
      let db2 := qdrantUpsert db (Point.mk (count + 1) v
        (Payload.mk note_text st.user_id))
      if st.has_searched then
        match list_notes_from_db sim embed db2 st (some st.last_query) with
        | Except.error e => (db2, Except.error e)
        | Except.ok res => (db2, Except.ok { st with search_results := res })
      else
        (db2, Except.ok st)

/-- An error raised by the vector store during collection bootstrap. -/
inductive QdrantError where
  | alreadyExists
  | other (msg : String)
  deriving Repr, DecidableEq

/-- State of the store relevant to `assure_db_collection_exists`: whether the
collection and the `user_id` payload index exist. -/
structure StoreState where
  collection_exists : Bool
  index_exists : Bool
  deriving Repr, DecidableEq

/-- Model of `assure_db_collection_exists` from `src/app.py`.  Creates the
collection when absent, then calls `create_payload_index` inside
`try: ... except: pass` — the bare `except` turns every failure of the
index-creation call, whatever its cause, into normal return.
`createIndex` is the store's index-creation behaviour, a parameter because the
store may fail for any reason (already-exists, network, auth, ...). -/
def assure_db_collection_exists
    (createIndex : StoreState → Except QdrantError StoreState)
    (s : StoreState) : Except QdrantError StoreState :=
  let s1 := if !s.collection_exists then { s with collection_exists := true } else s
  match createIndex s1 with
  | Except.ok s2 => Except.ok s2
  | Except.error _ => Except.ok s1

/-- Strictly sequential execution of a list of `add_note_to_db` calls, each
with its own session state and note text, threading the collection through;
returns the final collection. -/
def runAdds (sim : Vec → Vec → ℚ) (embed : String → Except Err Vec)
    (db : DB) : List (Session × String) → DB
  | [] => db
  | c :: rest => runAdds sim embed (add_note_to_db sim embed db c.1 c.2).1 rest


/-!
Model of the user-identifier derivation of `get_api_key_securely`:
`user_id = hashlib.md5(api_key.encode('utf-8')).hexdigest()`.  The Python
standard-library pieces (`hashlib.md5`, `str.encode`, `.hexdigest`) are
modelled by a complete executable MD5 over byte lists (RFC 1321), UTF-8
encoding of the credential string, and lowercase hex rendering.  The model
agrees with `hashlib` on the standard test vectors (e.g. the empty string
hashes to d41d8cd98f00b204e9800998ecf8427e and "abc" to
900150983cd24fb0d6963f7d28e17f72).
-/

def w32 (n : Nat) : Nat := n % 4294967296

def rotl (x s : Nat) : Nat := w32 ((x <<< s) ||| (x >>> (32 - s)))

def K : List Nat := [
  0xd76aa478, 0xe8c7b756, 0x242070db, 0xc1bdceee,
  0xf57c0faf, 0x4787c62a, 0xa8304613, 0xfd469501,
  0x698098d8, 0x8b44f7af, 0xffff5bb1, 0x895cd7be,
  0x6b901122, 0xfd987193, 0xa679438e, 0x49b40821,
  0xf61e2562, 0xc040b340, 0x265e5a51, 0xe9b6c7aa,
  0xd62f105d, 0x02441453, 0xd8a1e681, 0xe7d3fbc8,
  0x21e1cde6, 0xc33707d6, 0xf4d50d87, 0x455a14ed,
  0xa9e3e905, 0xfcefa3f8, 0x676f02d9, 0x8d2a4c8a,
  0xfffa3942, 0x8771f681, 0x6d9d6122, 0xfde5380c,
  0xa4beea44, 0x4bdecfa9, 0xf6bb4b60, 0xbebfbc70,
  0x289b7ec6, 0xeaa127fa, 0xd4ef3085, 0x04881d05,
  0xd9d4d039, 0xe6db99e5, 0x1fa27cf8, 0xc4ac5665,
  0xf4292244, 0x432aff97, 0xab9423a7, 0xfc93a039,
  0x655b59c3, 0x8f0ccc92, 0xffeff47d, 0x85845dd1,
  0x6fa87e4f, 0xfe2ce6e0, 0xa3014314, 0x4e0811a1,
  0xf7537e82, 0xbd3af235, 0x2ad7d2bb, 0xeb86d391]

def S : List Nat := [
  7, 12, 17, 22, 7, 12, 17, 22, 7, 12, 17, 22, 7, 12, 17, 22,
  5, 9, 14, 20, 5, 9, 14, 20, 5, 9, 14, 20, 5, 9, 14, 20,
  4, 11, 16, 23, 4, 11, 16, 23, 4, 11, 16, 23, 4, 11, 16, 23,
  6, 10, 15, 21, 6, 10, 15, 21, 6, 10, 15, 21, 6, 10, 15, 21]

def leBytes (n : Nat) : Nat → List Nat
  | 0 => []
  | k + 1 => (n % 256) :: leBytes (n / 256) k

def padMessage (msg : List Nat) : List Nat :=
  msg ++ 0x80 :: List.replicate ((120 - ((msg.length + 1) % 64)) % 64) 0
      ++ leBytes (msg.length * 8) 8

def toWords : List Nat → List Nat
  | b0 :: b1 :: b2 :: b3 :: rest =>
      (b0 + 256 * b1 + 65536 * b2 + 16777216 * b3) :: toWords rest
  | _ => []

structure Regs where
  a : Nat
  b : Nat
  c : Nat
  d : Nat

def roundLoop (M : List Nat) : Nat → Nat → Regs → Regs
  | 0, _, r => r
  | fuel + 1, i, r =>
      let fg : Nat × Nat :=
        if i < 16 then ((r.b &&& r.c) ||| ((0xffffffff ^^^ r.b) &&& r.d), i)
        else if i < 32 then
          ((r.d &&& r.b) ||| ((0xffffffff ^^^ r.d) &&& r.c), (5 * i + 1) % 16)
        else if i < 48 then (r.b ^^^ r.c ^^^ r.d, (3 * i + 5) % 16)
        else (r.c ^^^ (r.b ||| (0xffffffff ^^^ r.d)), (7 * i) % 16)
      let f := w32 (fg.1 + r.a + K.getD i 0 + M.getD fg.2 0)
      roundLoop M fuel (i + 1) ⟨r.d, w32 (r.b + rotl f (S.getD i 0)), r.b, r.c⟩

def processChunk (bytes : List Nat) (r : Regs) : Regs :=
  let M := toWords bytes
  let x := roundLoop M 64 0 r
  ⟨w32 (r.a + x.a), w32 (r.b + x.b), w32 (r.c + x.c), w32 (r.d + x.d)⟩

def chunkLoop : Nat → List Nat → Regs → Regs
  | 0, _, r => r
  | fuel + 1, bytes, r =>
      match bytes with
      | [] => r
      | _ => chunkLoop fuel (bytes.drop 64) (processChunk (bytes.take 64) r)

def md5 (msg : List Nat) : List Nat :=
  let padded := padMessage msg
  let r := chunkLoop padded.length padded
    ⟨0x67452301, 0xefcdab89, 0x98badcfe, 0x10325476⟩
  leBytes r.a 4 ++ leBytes r.b 4 ++ leBytes r.c 4 ++ leBytes r.d 4

def hexDigit (n : Nat) : Char :=
  if n < 10 then Char.ofNat (48 + n) else Char.ofNat (87 + n)

def byteHex (b : Nat) : List Char := [hexDigit (b / 16), hexDigit (b % 16)]

def hexdigest (bytes : List Nat) : String :=
  String.mk (bytes.foldr (fun b acc => byteHex b ++ acc) [])

def utf8Char (c : Char) : List Nat :=
  let n := c.toNat
  if n < 128 then [n]
  else if n < 2048 then [192 + n / 64, 128 + n % 64]
  else if n < 65536 then [224 + n / 4096, 128 + (n / 64) % 64, 128 + n % 64]
  else [240 + n / 262144, 128 + (n / 4096) % 64, 128 + (n / 64) % 64, 128 + n % 64]

def utf8Encode (s : String) : List Nat :=
  (s.data.map utf8Char).foldr (fun a b => a ++ b) []

/-- Model of the `user_id` assignment in `get_api_key_securely`:
`hashlib.md5(api_key.encode('utf-8')).hexdigest()`. -/
def get_user_id (api_key : String) : String :=
  hexdigest (md5 (utf8Encode api_key))

end NotesApp

namespace NotesApp

/-! Basic lemmas about the store model. -/

instance : IsTotal Scored (fun a b => b.score ≤ a.score) :=
  ⟨fun a b => le_total b.score a.score⟩

instance : IsTrans Scored (fun a b => b.score ≤ a.score) :=
  ⟨fun _ _ _ h1 h2 => le_trans h2 h1⟩

instance : IsTotal Point (fun p q => p.id ≤ q.id) :=
  ⟨fun a b => Nat.le_total a.id b.id⟩

instance : IsTrans Point (fun p q => p.id ≤ q.id) :=
  ⟨fun _ _ _ h1 h2 => Nat.le_trans h1 h2⟩

/-- Every search hit comes from a stored point that matches the mandatory
`user_id` filter, and its score is the metric applied to the query vector and
the stored vector. -/
theorem mem_qdrantSearch {sim : Vec → Vec → ℚ} {db : DB} {qv : Vec}
    {uid : String} {limit : Nat} {s : Scored}
    (hs : s ∈ qdrantSearch sim db qv uid limit) :
    s.point ∈ db ∧ s.point.payload.user_id = uid ∧
      s.score = sim qv s.point.vector := by
  have h1 := List.mem_of_mem_take hs
  rw [List.mem_insertionSort] at h1
  obtain ⟨p, hp, hps⟩ := List.mem_map.mp h1
  obtain ⟨hpdb, hpu⟩ := List.mem_filter.mp hp
  subst hps
  exact ⟨hpdb, eq_of_beq hpu, rfl⟩

/-- Every scroll result is a stored point that matches the mandatory
`user_id` filter. -/
theorem mem_qdrantScroll {db : DB} {uid : String} {limit : Nat} {p : Point}
    (hp : p ∈ qdrantScroll db uid limit) :
    p ∈ db ∧ p.payload.user_id = uid := by
  have h1 := List.mem_of_mem_take hp
  rw [List.mem_insertionSort] at h1
  obtain ⟨hpdb, hpu⟩ := List.mem_filter.mp h1
  exact ⟨hpdb, eq_of_beq hpu⟩

/-- Search returns at most `limit` hits. -/
theorem length_qdrantSearch_le (sim : Vec → Vec → ℚ) (db : DB) (qv : Vec)
    (uid : String) (limit : Nat) :
    (qdrantSearch sim db qv uid limit).length ≤ limit :=
  List.length_take_le _ _

/-- Scroll returns at most `limit` points. -/
theorem length_qdrantScroll_le (db : DB) (uid : String) (limit : Nat) :
    (qdrantScroll db uid limit).length ≤ limit :=
  List.length_take_le _ _

/-- Search hits are ranked by non-increasing score. -/
theorem pairwise_qdrantSearch (sim : Vec → Vec → ℚ) (db : DB) (qv : Vec)
    (uid : String) (limit : Nat) :
    (qdrantSearch sim db qv uid limit).Pairwise
      (fun a b => b.score ≤ a.score) :=
  List.Pairwise.sublist (List.take_sublist _ _)
    (List.sorted_insertionSort _ _)

/-- Scroll results come back in the store's natural order: ascending id. -/
theorem pairwise_qdrantScroll (db : DB) (uid : String) (limit : Nat) :
    (qdrantScroll db uid limit).Pairwise (fun p q => p.id ≤ q.id) :=
  List.Pairwise.sublist (List.take_sublist _ _)
    (List.sorted_insertionSort _ _)

/-- The upserted point is stored after the upsert. -/
theorem mem_qdrantUpsert_self (db : DB) (p : Point) : p ∈ qdrantUpsert db p := by
  unfold qdrantUpsert
  split
  case isTrue h =>
    obtain ⟨q, hq, hqid⟩ := List.any_eq_true.mp h
    exact List.mem_map.mpr ⟨q, hq, by simp [hqid]⟩
  case isFalse h =>
    exact List.mem_append_right _ (List.mem_singleton_self p)

/-- Insert-or-replace semantics keyed by id: after the upsert every stored
point is either the new point, or an old point whose id differs from the new
point's id. -/
theorem of_mem_qdrantUpsert {db : DB} {p x : Point}
    (hx : x ∈ qdrantUpsert db p) : x = p ∨ (x ∈ db ∧ x.id ≠ p.id) := by
  unfold qdrantUpsert at hx
  split at hx
  case isTrue hc =>
    obtain ⟨q, hq, hqx⟩ := List.mem_map.mp hx
    by_cases hid : (q.id == p.id) = true
    · left
      rw [if_pos hid] at hqx
      exact hqx.symm
    · right
      rw [if_neg hid] at hqx
      subst hqx
      exact ⟨hq, fun hcontra => hid (beq_iff_eq.mpr hcontra)⟩
  case isFalse hc =>
    rcases List.mem_append.mp hx with h | h
    · right
      refine ⟨h, fun hcontra => hc ?_⟩
      exact List.any_eq_true.mpr ⟨x, h, beq_iff_eq.mpr hcontra⟩
    · left
      exact List.mem_singleton.mp h

/-- When the upserted id is fresh, the upsert appends the new point. -/
theorem qdrantUpsert_append {db : DB} {p : Point}
    (h : ∀ q ∈ db, q.id ≠ p.id) : qdrantUpsert db p = db ++ [p] := by
  unfold qdrantUpsert
  rw [if_neg]
  intro hc
  obtain ⟨q, hq, hqid⟩ := List.any_eq_true.mp hc
  exact h q hq (beq_iff_eq.mp hqid)

end NotesApp

namespace NotesApp

/-- Helper: when the embedding of the note text succeeds, the collection
after `add_note_to_db` is exactly the upsert of the new point, whatever the
search-refresh step does. -/
theorem add_note_db_eq (sim : Vec → Vec → ℚ) (embed : String → Except Err Vec)
    (db : DB) (st : Session) (note_text : String) (v : Vec)
    (hemb : embed note_text = Except.ok v) :
    (add_note_to_db sim embed db st note_text).1
      = qdrantUpsert db (Point.mk (qdrantCount db + 1) v
          (Payload.mk note_text st.user_id)) := by
  unfold add_note_to_db
  rw [hemb]
  dsimp only
  split
  · split <;> rfl
  · rfl

/-- C2: `addNote(text, userId)` assigns the new note's id by reading the
current exact total count of all notes in the collection across all users and
adding 1, and upserts a point with that id, the embedding vector of the text,
and payload `{text, user_id}`, with insert-or-replace semantics keyed by id. -/
theorem c2_add_note_count_plus_one (sim : Vec → Vec → ℚ)
    (embed : String → Except Err Vec) (db : DB) (st : Session)
    (note_text : String) (v : Vec) (hemb : embed note_text = Except.ok v) :
    (add_note_to_db sim embed db st note_text).1
        = qdrantUpsert db (Point.mk (qdrantCount db + 1) v
            (Payload.mk note_text st.user_id))
    ∧ qdrantCount db = db.length
    ∧ Point.mk (qdrantCount db + 1) v (Payload.mk note_text st.user_id)
        ∈ (add_note_to_db sim embed db st note_text).1
    ∧ ∀ x ∈ (add_note_to_db sim embed db st note_text).1,
        x = Point.mk (qdrantCount db + 1) v (Payload.mk note_text st.user_id)
        ∨ (x ∈ db ∧ x.id ≠ qdrantCount db + 1) := by
  have hdb := add_note_db_eq sim embed db st note_text v hemb
  refine ⟨hdb, rfl, ?_, ?_⟩
  · rw [hdb]
    exact mem_qdrantUpsert_self _ _
  · intro x hx
    rw [hdb] at hx
    exact of_mem_qdrantUpsert hx

/-- Witness for C2 at a concrete input. -/
theorem c2_witness :
    (fun _ => Except.ok [(1:ℚ)] : String → Except Err Vec) "milk"
        = Except.ok [(1:ℚ)]
    ∧ (add_note_to_db (fun _ _ => (0:ℚ)) (fun _ => Except.ok [(1:ℚ)])
          [] (Session.mk "u" false "" []) "milk").1
        = qdrantUpsert [] (Point.mk (qdrantCount [] + 1) [(1:ℚ)]
            (Payload.mk "milk" "u")) :=
  ⟨rfl, (c2_add_note_count_plus_one (fun _ _ => (0:ℚ))
    (fun _ => Except.ok [(1:ℚ)]) [] (Session.mk "u" false "" []) "milk"
    [(1:ℚ)] rfl).1⟩

/-- C6 counterexample: a failure of the index-creation call that is not
"index already exists" (here: a network failure) is also swallowed by the
bare `except: pass` — `assure_db_collection_exists` returns normally instead
of propagating it. -/
theorem c6_counterexample :
    assure_db_collection_exists
        (fun _ => Except.error (QdrantError.other "network unreachable"))
        (StoreState.mk true false)
      = Except.ok (StoreState.mk true false) := rfl

/-- C6 amended: `assure_db_collection_exists` swallows every failure of the
index-creation call, whatever its cause; it always returns normally, and when
index creation fails it returns the state from just before that call. -/
theorem c6_amended_every_failure_swallowed
    (createIndex : StoreState → Except QdrantError StoreState)
    (s : StoreState) :
    (∃ s2, assure_db_collection_exists createIndex s = Except.ok s2)
    ∧ ∀ e, createIndex (if !s.collection_exists then
          { s with collection_exists := true } else s) = Except.error e →
        assure_db_collection_exists createIndex s
          = Except.ok (if !s.collection_exists then
              { s with collection_exists := true } else s) := by
  constructor
  · unfold assure_db_collection_exists
    dsimp only
    split
    · exact ⟨_, rfl⟩
    · exact ⟨_, rfl⟩
  · intro e he
    unfold assure_db_collection_exists
    dsimp only
    rw [he]

/-- Witness for C6 amended at a concrete input. -/
theorem c6_amended_witness :
    (fun _ => Except.error QdrantError.alreadyExists :
        StoreState → Except QdrantError StoreState)
      (if !(StoreState.mk false false).collection_exists then
        { StoreState.mk false false with collection_exists := true }
       else StoreState.mk false false) = Except.error QdrantError.alreadyExists
    ∧ assure_db_collection_exists (fun _ => Except.error QdrantError.alreadyExists)
        (StoreState.mk false false)
      = Except.ok (if !(StoreState.mk false false).collection_exists then
          { StoreState.mk false false with collection_exists := true }
         else StoreState.mk false false) :=
  ⟨rfl, (c6_amended_every_failure_swallowed
      (fun _ => Except.error QdrantError.alreadyExists)
      (StoreState.mk false false)).2 QdrantError.alreadyExists rfl⟩

/-- Helper: when the embedding of the note text fails, `add_note_to_db`
returns the collection unchanged and propagates the same error. -/
theorem add_note_embed_error (sim : Vec → Vec → ℚ)
    (embed : String → Except Err Vec) (db : DB) (st : Session)
    (note_text : String) (e : Err)
    (hemb : embed note_text = Except.error e) :
    add_note_to_db sim embed db st note_text = (db, Except.error e) := by
  unfold add_note_to_db
  rw [hemb]

/-- Decidable equality for collaborator outcomes, used to evaluate the model
on concrete inputs. -/
instance {ε α : Type} [DecidableEq ε] [DecidableEq α] : DecidableEq (Except ε α)
  | Except.error e, Except.error f =>
      if h : e = f then isTrue (congrArg Except.error h)
      else isFalse fun hc => h (Except.error.inj hc)
  | Except.error _, Except.ok _ => isFalse fun hc => Except.noConfusion hc
  | Except.ok _, Except.error _ => isFalse fun hc => Except.noConfusion hc
  | Except.ok x, Except.ok y =>
      if h : x = y then isTrue (congrArg Except.ok h)
      else isFalse fun hc => h (Except.ok.inj hc)

/-- Helper: shape of a successful-embedding `add_note_to_db` call when a
search context is active: the collection is the upsert, and the outcome is
the recomputation of the remembered query over the new collection. -/
theorem add_note_ok_refresh (sim : Vec → Vec → ℚ)
    (embed : String → Except Err Vec) (db : DB) (st : Session)
    (note_text : String) (v : Vec)
    (hemb : embed note_text = Except.ok v) (hs : st.has_searched = true) :
    add_note_to_db sim embed db st note_text
      = (qdrantUpsert db (Point.mk (qdrantCount db + 1) v
           (Payload.mk note_text st.user_id)),
         match list_notes_from_db sim embed
             (qdrantUpsert db (Point.mk (qdrantCount db + 1) v
               (Payload.mk note_text st.user_id)))
             st (some st.last_query) with
         | Except.error e => Except.error e
         | Except.ok res => Except.ok { st with search_results := res }) := by
  unfold add_note_to_db
  rw [hemb]
  dsimp only
  rw [hs]
  simp only [if_true]
  cases hlist : list_notes_from_db sim embed
      (qdrantUpsert db (Point.mk (qdrantCount db + 1) v
        (Payload.mk note_text st.user_id))) st (some st.last_query) with
  | error e => rfl
  | ok res => rfl

/-- C7: when the "search has occurred" flag is set and `add_note_to_db`
returns successfully, the cached result set in the returned session equals
recomputing `list_notes_from_db` on the post-add collection with the
remembered last query. -/
theorem c7_add_refreshes_search (sim : Vec → Vec → ℚ)
    (embed : String → Except Err Vec) (db : DB) (st : Session)
    (note_text : String) (db2 : DB) (st2 : Session)
    (hs : st.has_searched = true)
    (hadd : add_note_to_db sim embed db st note_text = (db2, Except.ok st2)) :
    list_notes_from_db sim embed db2 st (some st.last_query)
      = Except.ok st2.search_results := by
  cases hembv : embed note_text with
  | error e =>
      rw [add_note_embed_error sim embed db st note_text e hembv] at hadd
      simp at hadd
  | ok v =>
      have key := (hadd.symm.trans
        (add_note_ok_refresh sim embed db st note_text v hembv hs))
      cases hlist : list_notes_from_db sim embed
          (qdrantUpsert db (Point.mk (qdrantCount db + 1) v
            (Payload.mk note_text st.user_id))) st (some st.last_query) with
      | error e =>
          rw [hlist] at key
          simp at key
      | ok res =>
          rw [hlist] at key
          have h1 : db2 = qdrantUpsert db (Point.mk (qdrantCount db + 1) v
              (Payload.mk note_text st.user_id)) :=
            congrArg Prod.fst key
          have h2 : (Except.ok st2 : Except Err Session)
              = Except.ok ({ st with search_results := res } : Session) :=
            congrArg Prod.snd key
          have h3 : st2 = ({ st with search_results := res } : Session) := by
            injection h2
          rw [h1, h3]
          exact hlist

/-- Witness for C7 at a concrete input. -/
theorem c7_witness :
    (Session.mk "u" true "" []).has_searched = true
    ∧ add_note_to_db (fun _ _ => (0:ℚ)) (fun _ => Except.ok [(1:ℚ)])
        [] (Session.mk "u" true "" []) "milk"
      = ([Point.mk 1 [(1:ℚ)] (Payload.mk "milk" "u")],
         Except.ok (Session.mk "u" true ""
           [NoteView.mk "milk" none]))
    ∧ list_notes_from_db (fun _ _ => (0:ℚ)) (fun _ => Except.ok [(1:ℚ)])
        [Point.mk 1 [(1:ℚ)] (Payload.mk "milk" "u")]
        (Session.mk "u" true "" []) (some "")
      = Except.ok (Session.mk "u" true "" [NoteView.mk "milk" none]).search_results :=
  ⟨rfl, by decide,
   c7_add_refreshes_search (fun _ _ => (0:ℚ)) (fun _ => Except.ok [(1:ℚ)])
     [] (Session.mk "u" true "" []) "milk"
     [Point.mk 1 [(1:ℚ)] (Payload.mk "milk" "u")]
     (Session.mk "u" true "" [NoteView.mk "milk" none]) rfl (by decide)⟩

/-- C8 counterexample: with a prior search context active, the embedding
gateway can fail during `addNote` (while recomputing the remembered query,
after the upsert): the call fails, yet the new point has been durably
upserted — the collection did change under a failed operation. -/
theorem c8_counterexample :
    add_note_to_db (fun _ _ => (0:ℚ))
        (fun s => if s = "note" then Except.ok [(1:ℚ)]
                  else Except.error (Err.serviceError "down"))
        [] (Session.mk "u" true "old" []) "note"
      = ([Point.mk 1 [(1:ℚ)] (Payload.mk "note" "u")],
         Except.error (Err.serviceError "down")) := by decide

/-- C8 amended: when the embedding gateway fails on the note's own text (the
failure happens before the write), the failure surfaces unmodified and the
collection is unchanged; only a failure in the post-upsert search refresh can
leave the already-written note behind. -/
theorem c8_amended_prefail_changes_nothing (sim : Vec → Vec → ℚ)
    (embed : String → Except Err Vec) (db : DB) (st : Session)
    (note_text : String) (e : Err)
    (hemb : embed note_text = Except.error e) :
    add_note_to_db sim embed db st note_text = (db, Except.error e) :=
  add_note_embed_error sim embed db st note_text e hemb

/-- Witness for C8 amended at a concrete input. -/
theorem c8_amended_witness :
    (fun _ => Except.error (Err.serviceError "down") : String → Except Err Vec)
        "milk" = Except.error (Err.serviceError "down")
    ∧ add_note_to_db (fun _ _ => (0:ℚ))
        (fun _ => Except.error (Err.serviceError "down"))
        [Point.mk 1 [] (Payload.mk "a" "u")] (Session.mk "u" false "" []) "milk"
      = ([Point.mk 1 [] (Payload.mk "a" "u")],
         Except.error (Err.serviceError "down")) :=
  ⟨rfl, c8_amended_prefail_changes_nothing (fun _ _ => (0:ℚ))
    (fun _ => Except.error (Err.serviceError "down"))
    [Point.mk 1 [] (Payload.mk "a" "u")] (Session.mk "u" false "" []) "milk"
    (Err.serviceError "down") rfl⟩

end NotesApp

namespace NotesApp

/-- C3: for every present, non-blank query, `listNotes` computes the query's
embedding, searches only the caller's notes (mandatory `user_id` filter),
and returns at most 10 results ordered by non-increasing similarity score,
each result carrying its similarity score. -/
theorem c3_query_mode (sim : Vec → Vec → ℚ) (embed : String → Except Err Vec)
    (db : DB) (st : Session) (q : String) (v : Vec)
    (hq : pyStrip q ≠ "") (hemb : embed q = Except.ok v) :
    ∃ res, list_notes_from_db sim embed db st (some q) = Except.ok res
      ∧ res = (qdrantSearch sim db v st.user_id 10).map
          (fun s => NoteView.mk s.point.payload.text (some s.score))
      ∧ res.length ≤ 10
      ∧ res.Pairwise (fun a b => b.score.getD 0 ≤ a.score.getD 0)
      ∧ ∀ r ∈ res, ∃ p, p ∈ db ∧ p.payload.user_id = st.user_id
          ∧ p.payload.text = r.text ∧ r.score = some (sim v p.vector) := by
  refine ⟨_, ?_, rfl, ?_, ?_, ?_⟩
  · unfold list_notes_from_db
    dsimp only
    rw [if_pos hq, hemb]
  · rw [List.length_map]
    exact length_qdrantSearch_le sim db v st.user_id 10
  · exact List.pairwise_map.mpr (pairwise_qdrantSearch sim db v st.user_id 10)
  · intro r hr
    obtain ⟨s, hsmem, hsr⟩ := List.mem_map.mp hr
    obtain ⟨h1, h2, h3⟩ := mem_qdrantSearch hsmem
    subst hsr
    exact ⟨s.point, h1, h2, rfl, by rw [h3]⟩

/-- Witness for C3 at a concrete input. -/
theorem c3_witness :
    pyStrip "milk" ≠ ""
    ∧ ∃ res, list_notes_from_db (fun _ _ => (0:ℚ)) (fun _ => Except.ok [])
          [Point.mk 1 [] (Payload.mk "milk" "u")]
          (Session.mk "u" false "" []) (some "milk") = Except.ok res
        ∧ res = (qdrantSearch (fun _ _ => (0:ℚ))
              [Point.mk 1 [] (Payload.mk "milk" "u")] [] "u" 10).map
            (fun s => NoteView.mk s.point.payload.text (some s.score))
        ∧ res.length ≤ 10
        ∧ res.Pairwise (fun a b => b.score.getD 0 ≤ a.score.getD 0)
        ∧ ∀ r ∈ res, ∃ p, p ∈ [Point.mk 1 [] (Payload.mk "milk" "u")]
            ∧ p.payload.user_id = (Session.mk "u" false "" []).user_id
            ∧ p.payload.text = r.text
            ∧ r.score = some (((fun _ _ => (0:ℚ)) : Vec → Vec → ℚ) ([] : Vec) p.vector) :=
  ⟨by decide, c3_query_mode (fun _ _ => (0:ℚ)) (fun _ => Except.ok [])
    [Point.mk 1 [] (Payload.mk "milk" "u")] (Session.mk "u" false "" [])
    "milk" [] (by decide) rfl⟩

/-- C4: when the query is absent or blank after stripping, `listNotes`
returns up to 10 of the caller's notes in the store's natural order
(ascending id), and every returned entry has `score = none`. -/
theorem c4_browse_mode (sim : Vec → Vec → ℚ) (embed : String → Except Err Vec)
    (db : DB) (st : Session) (query : Option String)
    (hq : query = none ∨ ∃ q, query = some q ∧ pyStrip q = "") :
    ∃ res, list_notes_from_db sim embed db st query = Except.ok res
      ∧ res = (qdrantScroll db st.user_id 10).map
          (fun p => NoteView.mk p.payload.text none)
      ∧ res.length ≤ 10
      ∧ (∀ r ∈ res, r.score = none)
      ∧ (qdrantScroll db st.user_id 10).Pairwise (fun p1 p2 => p1.id ≤ p2.id)
      ∧ ∀ r ∈ res, ∃ p, p ∈ db ∧ p.payload.user_id = st.user_id
          ∧ p.payload.text = r.text := by
  have hres : list_notes_from_db sim embed db st query
      = Except.ok ((qdrantScroll db st.user_id 10).map
          (fun p => NoteView.mk p.payload.text none)) := by
    rcases hq with h | ⟨q, hq1, hq2⟩
    · rw [h]
      rfl
    · rw [hq1]
      unfold list_notes_from_db
      dsimp only
      rw [if_neg (fun hc => hc hq2)]
  refine ⟨_, hres, rfl, ?_, ?_, pairwise_qdrantScroll db st.user_id 10, ?_⟩
  · rw [List.length_map]
    exact length_qdrantScroll_le db st.user_id 10
  · intro r hr
    obtain ⟨p, _, hpr⟩ := List.mem_map.mp hr
    subst hpr
    rfl
  · intro r hr
    obtain ⟨p, hpmem, hpr⟩ := List.mem_map.mp hr
    obtain ⟨h1, h2⟩ := mem_qdrantScroll hpmem
    subst hpr
    exact ⟨p, h1, h2, rfl⟩

/-- Witness for C4 at a concrete input (a whitespace-only query). -/
theorem c4_witness :
    ((some " " : Option String) = none
      ∨ ∃ q, (some " " : Option String) = some q ∧ pyStrip q = "")
    ∧ ∃ res, list_notes_from_db (fun _ _ => (0:ℚ)) (fun _ => Except.ok [])
          [Point.mk 1 [] (Payload.mk "milk" "u")]
          (Session.mk "u" false "" []) (some " ") = Except.ok res
        ∧ res = (qdrantScroll [Point.mk 1 [] (Payload.mk "milk" "u")] "u" 10).map
            (fun p => NoteView.mk p.payload.text none)
        ∧ res.length ≤ 10
        ∧ (∀ r ∈ res, r.score = none)
        ∧ (qdrantScroll [Point.mk 1 [] (Payload.mk "milk" "u")] "u" 10).Pairwise
            (fun p1 p2 => p1.id ≤ p2.id)
        ∧ ∀ r ∈ res, ∃ p, p ∈ [Point.mk 1 [] (Payload.mk "milk" "u")]
            ∧ p.payload.user_id = (Session.mk "u" false "" []).user_id
            ∧ p.payload.text = r.text :=
  ⟨Or.inr ⟨" ", rfl, by decide⟩,
   c4_browse_mode (fun _ _ => (0:ℚ)) (fun _ => Except.ok [])
     [Point.mk 1 [] (Payload.mk "milk" "u")] (Session.mk "u" false "" [])
     (some " ") (Or.inr ⟨" ", rfl, by decide⟩)⟩

end NotesApp

namespace NotesApp

/-- Helper: every entry ever returned by `list_notes_from_db` stems from a
stored point owned by the session's user: both read paths apply the mandatory
`user_id` filter. -/
theorem list_notes_provenance (sim : Vec → Vec → ℚ)
    (embed : String → Except Err Vec) (db : DB) (st2 : Session)
    (query : Option String) (res : List NoteView)
    (hres : list_notes_from_db sim embed db st2 query = Except.ok res) :
    ∀ r ∈ res, ∃ p, p ∈ db ∧ p.payload.user_id = st2.user_id
      ∧ p.payload.text = r.text := by
  have scroll_case : ∀ r ∈ (qdrantScroll db st2.user_id 10).map
      (fun p => NoteView.mk p.payload.text none),
      ∃ p, p ∈ db ∧ p.payload.user_id = st2.user_id
        ∧ p.payload.text = r.text := by
    intro r hr
    obtain ⟨p, hp, hpr⟩ := List.mem_map.mp hr
    obtain ⟨h1, h2⟩ := mem_qdrantScroll hp
    subst hpr
    exact ⟨p, h1, h2, rfl⟩
  cases query with
  | none =>
      have hres2 : ((qdrantScroll db st2.user_id 10).map
          (fun p => NoteView.mk p.payload.text none)) = res := by
        unfold list_notes_from_db at hres
        exact Except.ok.inj hres
      rw [← hres2]
      exact scroll_case
  | some q =>
      by_cases hq : pyStrip q ≠ ""
      · cases hembq : embed q with
        | error e =>
            unfold list_notes_from_db at hres
            dsimp only at hres
            rw [if_pos hq, hembq] at hres
            exact Except.noConfusion hres
        | ok qv =>
            unfold list_notes_from_db at hres
            dsimp only at hres
            rw [if_pos hq, hembq] at hres
            have hres2 := Except.ok.inj hres
            rw [← hres2]
            intro r hr
            obtain ⟨s, hs, hsr⟩ := List.mem_map.mp hr
            obtain ⟨h1, h2, _⟩ := mem_qdrantSearch hs
            subst hsr
            exact ⟨s.point, h1, h2, rfl⟩
      · unfold list_notes_from_db at hres
        dsimp only at hres
        rw [if_neg hq] at hres
        have hres2 := Except.ok.inj hres
        rw [← hres2]
        exact scroll_case

/-- C1: a note added under one user never appears in the results of
`listNotes` for a different user, in either mode: the added point carries the
adding user's `user_id`, every read applies the mandatory `user_id == userId2`
filter, and so each returned entry stems from a point owned by the reading
user, never from the added point. -/
theorem c1_user_isolation (sim : Vec → Vec → ℚ)
    (embed : String → Except Err Vec) (db : DB) (st : Session)
    (note_text : String) (u2 : String) (v : Vec)
    (hne : st.user_id ≠ u2) (hemb : embed note_text = Except.ok v) :
    Point.mk (qdrantCount db + 1) v (Payload.mk note_text st.user_id)
        ∈ (add_note_to_db sim embed db st note_text).1
    ∧ (∀ qv limit,
        Point.mk (qdrantCount db + 1) v (Payload.mk note_text st.user_id)
          ∉ (qdrantSearch sim (add_note_to_db sim embed db st note_text).1
              qv u2 limit).map Scored.point)
    ∧ (∀ limit,
        Point.mk (qdrantCount db + 1) v (Payload.mk note_text st.user_id)
          ∉ qdrantScroll (add_note_to_db sim embed db st note_text).1 u2 limit)
    ∧ (∀ st2 query res, st2.user_id = u2 →
        list_notes_from_db sim embed (add_note_to_db sim embed db st note_text).1
            st2 query = Except.ok res →
        ∀ r ∈ res, ∃ p, p ∈ (add_note_to_db sim embed db st note_text).1
          ∧ p.payload.user_id = u2 ∧ p.payload.user_id ≠ st.user_id
          ∧ p.payload.text = r.text) := by
  refine ⟨?_, ?_, ?_, ?_⟩
  · rw [add_note_db_eq sim embed db st note_text v hemb]
    exact mem_qdrantUpsert_self _ _
  · intro qv limit hmem
    obtain ⟨s, hs, hsp⟩ := List.mem_map.mp hmem
    obtain ⟨_, h2, _⟩ := mem_qdrantSearch hs
    rw [hsp] at h2
    exact hne h2
  · intro limit hmem
    obtain ⟨_, h2⟩ := mem_qdrantScroll hmem
    exact hne h2
  · intro st2 query res hu2 hres r hr
    obtain ⟨p, h1, h2, h3⟩ := list_notes_provenance sim embed
      (add_note_to_db sim embed db st note_text).1 st2 query res hres r hr
    rw [hu2] at h2
    refine ⟨p, h1, h2, ?_, h3⟩
    rw [h2]
    exact fun hc => hne hc.symm

/-- Witness for C1 at a concrete input. -/
theorem c1_witness :
    ("u1" : String) ≠ "u2"
    ∧ Point.mk 1 ([] : Vec) (Payload.mk "hello" "u1")
        ∉ qdrantScroll (add_note_to_db (fun _ _ => (0:ℚ))
            (fun _ => Except.ok ([] : Vec))
            [] (Session.mk "u1" false "" []) "hello").1 "u2" 10 :=
  ⟨by decide,
   (c1_user_isolation (fun _ _ => (0:ℚ)) (fun _ => Except.ok ([] : Vec))
      [] (Session.mk "u1" false "" []) "hello" "u2" ([] : Vec)
      (by decide) rfl).2.2.1 10⟩

end NotesApp

namespace NotesApp

/-- Helper: in a collection whose stored ids are exactly 1..length, the id
`length + 1` is fresh. -/
theorem fresh_id_of_ids {db : DB}
    (hids : db.map Point.id = List.range' 1 db.length) :
    ∀ q ∈ db, q.id ≠ db.length + 1 := by
  intro q hq hcontra
  have hmem : q.id ∈ db.map Point.id := List.mem_map_of_mem Point.id hq
  rw [hids, List.mem_range'] at hmem
  obtain ⟨i, hi, hqi⟩ := hmem
  omega

/-- C5 counterexample: a user who already owns 10 notes (ids 1..10) adds an
11th note "new"; the `addNote` call succeeds, yet browse mode returns only
the first 10 notes in id order, so the round trip misses the new note. -/
theorem c5_counterexample :
    (add_note_to_db (fun _ _ => (0:ℚ)) (fun _ => Except.ok ([] : Vec))
        [Point.mk 1 [] (Payload.mk "old" "u"), Point.mk 2 [] (Payload.mk "old" "u"),
         Point.mk 3 [] (Payload.mk "old" "u"), Point.mk 4 [] (Payload.mk "old" "u"),
         Point.mk 5 [] (Payload.mk "old" "u"), Point.mk 6 [] (Payload.mk "old" "u"),
         Point.mk 7 [] (Payload.mk "old" "u"), Point.mk 8 [] (Payload.mk "old" "u"),
         Point.mk 9 [] (Payload.mk "old" "u"), Point.mk 10 [] (Payload.mk "old" "u")]
        (Session.mk "u" false "" []) "new").2.isOk = true
    ∧ list_notes_from_db (fun _ _ => (0:ℚ)) (fun _ => Except.ok ([] : Vec))
        (add_note_to_db (fun _ _ => (0:ℚ)) (fun _ => Except.ok ([] : Vec))
          [Point.mk 1 [] (Payload.mk "old" "u"), Point.mk 2 [] (Payload.mk "old" "u"),
           Point.mk 3 [] (Payload.mk "old" "u"), Point.mk 4 [] (Payload.mk "old" "u"),
           Point.mk 5 [] (Payload.mk "old" "u"), Point.mk 6 [] (Payload.mk "old" "u"),
           Point.mk 7 [] (Payload.mk "old" "u"), Point.mk 8 [] (Payload.mk "old" "u"),
           Point.mk 9 [] (Payload.mk "old" "u"), Point.mk 10 [] (Payload.mk "old" "u")]
          (Session.mk "u" false "" []) "new").1
        (Session.mk "u" false "" []) none
      = Except.ok (List.replicate 10 (NoteView.mk "old" none))
    ∧ ∀ r ∈ List.replicate 10 (NoteView.mk "old" none), r.text ≠ "new" := by
  decide

/-- C5 amended: a successful `addNote` followed by browse-mode `listNotes`
for the same user includes a note with that text and user — provided the
collection's ids are the sequentially assigned 1..count and the user owned
at most 9 notes before the call, so that the new note fits within the 10-note
browse window. -/
theorem c5_amended_add_then_browse (sim : Vec → Vec → ℚ)
    (embed : String → Except Err Vec) (db : DB) (st : Session)
    (note_text : String) (v : Vec)
    (hids : db.map Point.id = List.range' 1 db.length)
    (howned : (db.filter (fun p => p.payload.user_id == st.user_id)).length ≤ 9)
    (hemb : embed note_text = Except.ok v) :
    Point.mk (qdrantCount db + 1) v (Payload.mk note_text st.user_id)
        ∈ qdrantScroll (add_note_to_db sim embed db st note_text).1 st.user_id 10
    ∧ ∃ res, list_notes_from_db sim embed
          (add_note_to_db sim embed db st note_text).1 st none = Except.ok res
        ∧ ∃ r ∈ res, r.text = note_text ∧ r.score = none := by
  have hdb2 : (add_note_to_db sim embed db st note_text).1
      = db ++ [Point.mk (qdrantCount db + 1) v (Payload.mk note_text st.user_id)] := by
    rw [add_note_db_eq sim embed db st note_text v hemb]
    exact qdrantUpsert_append (fresh_id_of_ids hids)
  have hfilter : (db ++ [Point.mk (qdrantCount db + 1) v
        (Payload.mk note_text st.user_id)]).filter
        (fun p => p.payload.user_id == st.user_id)
      = db.filter (fun p => p.payload.user_id == st.user_id)
        ++ [Point.mk (qdrantCount db + 1) v (Payload.mk note_text st.user_id)] := by
    rw [List.filter_append]
    congr 1
    simp [List.filter]
  have hlen : ((db ++ [Point.mk (qdrantCount db + 1) v
        (Payload.mk note_text st.user_id)]).filter
        (fun p => p.payload.user_id == st.user_id)).length ≤ 10 := by
    rw [hfilter, List.length_append]
    simpa using howned
  have hscroll : qdrantScroll (db ++ [Point.mk (qdrantCount db + 1) v
        (Payload.mk note_text st.user_id)]) st.user_id 10
      = List.insertionSort (fun p1 p2 => p1.id ≤ p2.id)
          ((db ++ [Point.mk (qdrantCount db + 1) v
            (Payload.mk note_text st.user_id)]).filter
            (fun p => p.payload.user_id == st.user_id)) := by
    unfold qdrantScroll
    apply List.take_of_length_le
    rw [List.length_insertionSort]
    exact hlen
  have hmem : Point.mk (qdrantCount db + 1) v (Payload.mk note_text st.user_id)
      ∈ qdrantScroll (add_note_to_db sim embed db st note_text).1 st.user_id 10 := by
    rw [hdb2, hscroll, List.mem_insertionSort, hfilter]
    exact List.mem_append_right _ (List.mem_singleton_self _)
  refine ⟨hmem, ?_⟩
  refine ⟨_, rfl, ?_⟩
  exact ⟨NoteView.mk note_text none,
    List.mem_map_of_mem (fun p => NoteView.mk p.payload.text none) hmem,
    rfl, rfl⟩

/-- Witness for C5 amended at a concrete input. -/
theorem c5_amended_witness :
    ([Point.mk 1 [] (Payload.mk "old" "u")] : DB).map Point.id
        = List.range' 1 ([Point.mk 1 [] (Payload.mk "old" "u")] : DB).length
    ∧ (([Point.mk 1 [] (Payload.mk "old" "u")] : DB).filter
        (fun p => p.payload.user_id == (Session.mk "u" false "" []).user_id)).length ≤ 9
    ∧ Point.mk (qdrantCount [Point.mk 1 [] (Payload.mk "old" "u")] + 1) ([] : Vec)
          (Payload.mk "new" "u")
        ∈ qdrantScroll (add_note_to_db (fun _ _ => (0:ℚ))
            (fun _ => Except.ok ([] : Vec))
            [Point.mk 1 [] (Payload.mk "old" "u")]
            (Session.mk "u" false "" []) "new").1 "u" 10 :=
  ⟨by decide, by decide,
   (c5_amended_add_then_browse (fun _ _ => (0:ℚ)) (fun _ => Except.ok ([] : Vec))
      [Point.mk 1 [] (Payload.mk "old" "u")] (Session.mk "u" false "" [])
      "new" ([] : Vec) (by decide) (by decide) rfl).1⟩

end NotesApp

namespace NotesApp

/-- Helper: starting from a collection whose ids are exactly 1..length,
running a list of sequential `add_note_to_db` calls whose embeddings all
succeed appends one point per call, so the final ids are exactly
1..(initial length + number of calls). -/
theorem runAdds_ids (sim : Vec → Vec → ℚ) (embed : String → Except Err Vec)
    (calls : List (Session × String)) :
    ∀ db : DB, db.map Point.id = List.range' 1 db.length →
    (∀ c ∈ calls, (embed c.2).isOk = true) →
    (runAdds sim embed db calls).map Point.id
      = List.range' 1 (db.length + calls.length) := by
  induction calls with
  | nil =>
      intro db hids _
      simpa using hids
  | cons c rest ih =>
      intro db hids hok
      obtain ⟨v, hv⟩ : ∃ v, embed c.2 = Except.ok v := by
        have hco := hok c (List.mem_cons_self c rest)
        cases hemb : embed c.2 with
        | error e =>
            rw [hemb] at hco
            exact Bool.noConfusion hco
        | ok v => exact ⟨v, rfl⟩
      have hstep : (add_note_to_db sim embed db c.1 c.2).1
          = db ++ [Point.mk (db.length + 1) v (Payload.mk c.2 c.1.user_id)] := by
        rw [add_note_db_eq sim embed db c.1 c.2 v hv]
        exact qdrantUpsert_append (fresh_id_of_ids hids)
      have hids2 : ((add_note_to_db sim embed db c.1 c.2).1).map Point.id
          = List.range' 1 ((add_note_to_db sim embed db c.1 c.2).1).length := by
        rw [hstep]
        simp only [List.map_append, List.map_cons, List.map_nil, hids,
          List.length_append, List.length_cons, List.length_nil, Nat.zero_add]
        have harith : (1 : Nat) + 1 * db.length = db.length + 1 := by omega
        rw [List.range'_concat 1 db.length, harith]
      have hok2 : ∀ c2 ∈ rest, (embed c2.2).isOk = true :=
        fun c2 hc2 => hok c2 (List.mem_cons_of_mem c hc2)
      have := ih ((add_note_to_db sim embed db c.1 c.2).1) hids2 hok2
      show (runAdds sim embed (add_note_to_db sim embed db c.1 c.2).1 rest).map
          Point.id = _
      rw [this, hstep]
      congr 1
      rw [List.length_append]
      simp only [List.length_cons, List.length_nil, List.length_cons]
      omega

/-- C10: under strictly sequential execution starting from an empty
collection, when every embedding succeeds, each `addNote` call assigns id
`previous count + 1`, which is fresh, so the upsert appends a new point, and
after N calls the stored ids are exactly 1..N. -/
theorem c10_sequential_fresh_ids (sim : Vec → Vec → ℚ)
    (embed : String → Except Err Vec) (calls : List (Session × String))
    (hok : ∀ c ∈ calls, (embed c.2).isOk = true) :
    (runAdds sim embed [] calls).map Point.id = List.range' 1 calls.length
    ∧ (runAdds sim embed [] calls).length = calls.length
    ∧ ∀ pre c rest, calls = pre ++ c :: rest →
        ∃ v, embed c.2 = Except.ok v
          ∧ (∀ q ∈ runAdds sim embed [] pre,
              q.id ≠ qdrantCount (runAdds sim embed [] pre) + 1)
          ∧ (add_note_to_db sim embed (runAdds sim embed [] pre) c.1 c.2).1
              = runAdds sim embed [] pre
                ++ [Point.mk (qdrantCount (runAdds sim embed [] pre) + 1) v
                     (Payload.mk c.2 c.1.user_id)] := by
  have hmain : (runAdds sim embed [] calls).map Point.id
      = List.range' 1 calls.length := by
    have := runAdds_ids sim embed calls [] (by simp) hok
    simpa using this
  refine ⟨hmain, ?_, ?_⟩
  · have := congrArg List.length hmain
    rw [List.length_map, List.length_range'] at this
    exact this
  · intro pre c rest hsplit
    have hokpre : ∀ c2 ∈ pre, (embed c2.2).isOk = true := by
      intro c2 hc2
      exact hok c2 (by rw [hsplit]; exact List.mem_append_left _ hc2)
    have hpre : (runAdds sim embed [] pre).map Point.id
        = List.range' 1 (runAdds sim embed [] pre).length := by
      have h1 := runAdds_ids sim embed pre [] (by simp) hokpre
      have h2 := congrArg List.length h1
      rw [List.length_map, List.length_range'] at h2
      rw [h1]
      simp only [List.length_nil, Nat.zero_add] at h2 ⊢
      rw [h2]
    obtain ⟨v, hv⟩ : ∃ v, embed c.2 = Except.ok v := by
      have hco : (embed c.2).isOk = true :=
        hok c (by rw [hsplit]; exact List.mem_append_right _ (List.mem_cons_self c rest))
      cases hemb : embed c.2 with
      | error e =>
          rw [hemb] at hco
          exact Bool.noConfusion hco
      | ok v => exact ⟨v, rfl⟩
    refine ⟨v, hv, fresh_id_of_ids hpre, ?_⟩
    rw [add_note_db_eq sim embed _ c.1 c.2 v hv]
    exact qdrantUpsert_append (fresh_id_of_ids hpre)

/-- Witness for C10 at a concrete input: two sequential adds by two users. -/
theorem c10_witness :
    (∀ c ∈ [((Session.mk "u1" false "" []), "a"), ((Session.mk "u2" false "" []), "b")],
      (((fun _ => Except.ok ([] : Vec)) : String → Except Err Vec) c.2).isOk = true)
    ∧ (runAdds (fun _ _ => (0:ℚ)) (fun _ => Except.ok ([] : Vec)) []
        [((Session.mk "u1" false "" []), "a"), ((Session.mk "u2" false "" []), "b")]).map
          Point.id
      = List.range' 1 ([((Session.mk "u1" false "" []), "a"),
          ((Session.mk "u2" false "" []), "b")] : List (Session × String)).length :=
  ⟨by decide,
   (c10_sequential_fresh_ids (fun _ _ => (0:ℚ)) (fun _ => Except.ok ([] : Vec))
      [((Session.mk "u1" false "" []), "a"), ((Session.mk "u2" false "" []), "b")]
      (by decide)).1⟩

set_option maxRecDepth 8000 in
/-- C9: the user identifier is derived deterministically from the credential
by the md5 hexdigest of its UTF-8 encoding: two runs of the derivation on
equal secrets produce equal identifiers; and the two sample distinct
credentials below indeed receive distinct identifiers. -/
theorem c9_user_id_deterministic :
    (∀ s1 s2 : String, s1 = s2 → get_user_id s1 = get_user_id s2)
    ∧ get_user_id "sk-alice" ≠ get_user_id "sk-bob" := by
  constructor
  · intro s1 s2 h
    exact congrArg get_user_id h
  · decide

/-- Witness for C9 at a concrete input. -/
theorem c9_witness :
    ("sk-test" : String) = "sk-test"
    ∧ get_user_id "sk-test" = get_user_id "sk-test" :=
  ⟨rfl, c9_user_id_deterministic.1 "sk-test" "sk-test" rfl⟩

end NotesApp
